import Mathlib

/-!
Verification of the Skill Scoring & Role-Matching Engine of the
Engineering Skills Radar repository.

The repository's durable artifacts under version control here are the
PostgreSQL schema (`database/schema.sql`), the seed data, the React
frontend, and the phase walkthrough documents.  The backend services
that implement the scoring and matching algorithms
(`backend/services/skill_service.py`, `backend/services/role_service.py`)
are referenced by the walkthrough documents and consumed by the frontend
but are not present in the tree; where a definition embeds one of those
missing functions it is modelled from the specification text and its doc
comment says so.  Definitions taken from files present in the tree
(the schema's CHECK constraints and defaults, the frontend's
`RequiredSkill` and `SkillGap` shapes) cite their source.

Scores and weights are rationals (`ℚ`): the source works with decimal
scores 0..100 and decimal weights, and rational arithmetic represents
those exactly.  Note that in Lean `x / 0 = 0` for rationals; the
"no evidence yet is a valid zero-score state" reading of the spec makes
this the faithful convention for empty denominators.
-/

/-- The closed evidence-kind set.  From `schema.sql`
(`src/unnamed/part_001`, line 97): `assessment_type` is one of
quiz, project, certification, internship, interview. -/
inductive EvidenceKind : Type
  | quiz
  | project
  | certification
  | internship
  | interview
deriving DecidableEq, Repr

/-- Canonical enumeration of the evidence kinds, in the order the spec
lists their weights. -/
def allKinds : List EvidenceKind :=
  [.quiz, .project, .certification, .internship, .interview]

/-- Modelled from the spec: one evidence record of `EvidenceRecord`
(missing `backend/models/database_models.py` /
`skill_assessments` row): a kind, a raw score 0..100, the
provider-credibility carried by certification payloads, and a timestamp. -/
structure EvidenceRecord : Type where
  kind : EvidenceKind
  score : ℚ
  credibility : ℚ
  timestamp : ℕ
deriving DecidableEq, Repr

/-- Modelled from the spec: an administrative `SkillOverride` row
(`skill_mapping_overrides` in `src/unnamed/part_001`, lines 185-194
declares the table; the service applying it is missing). -/
structure SkillOverride : Type where
  overridden_score : ℚ
  timestamp : ℕ
deriving DecidableEq, Repr

/-- Modelled from the spec: the derived `AggregatedSkillScore` for one
(student, skill) pair (the `student_skills` row of
`src/unnamed/part_001`, lines 54-64, whose recomputation lives in the
missing `skill_service.py`).  `evidence_sources` summarises each present
kind as (kind, score entering aggregation, relative weight). -/
structure AggregatedSkillScore : Type where
  weighted_score : ℚ
  confidence : ℚ
  evidence_sources : List (EvidenceKind × ℚ × ℚ)
deriving DecidableEq, Repr

/-- Modelled from the spec: the fixed relative weight of each evidence
kind — quiz 0.40, project 0.35, certification 0.25, internship 0.20
(also recorded in the schema comment at `src/unnamed/part_001`,
line 242, and the phase-7 walkthrough `src/unnamed/part_003`,
lines 43-48).  The spec assigns no aggregation weight to interview
evidence; it is given weight 0 so that it never contributes. -/
def kindWeight : EvidenceKind → ℚ
  | .quiz => 2 / 5
  | .project => 7 / 20
  | .certification => 1 / 4
  | .internship => 1 / 5
  | .interview => 0

/-- Modelled from the spec: the score a record contributes inside its
kind.  Certification scores are scaled by the provider-credibility
multiplier before entering aggregation; every other kind enters raw. -/
def effectiveScore (r : EvidenceRecord) : ℚ :=
  if r.kind = .certification then r.score * r.credibility else r.score

/-- Maximum of a list of scores, with 0 for the empty list (scores are
non-negative, so the neutral element does not disturb the maximum). -/
def maxScore (xs : List ℚ) : ℚ :=
  xs.foldl max 0

/-- Of two records, keep the more recent one; on equal timestamps the
second (later-appended) record wins, matching append-only insertion
order. -/
def pickRecent (a b : EvidenceRecord) : EvidenceRecord :=
  if a.timestamp ≤ b.timestamp then b else a

/-- Score of the most recent record in the list (0 if the list is
empty). -/
def mostRecentScore : List EvidenceRecord → ℚ
  | [] => 0
  | r :: rs => (rs.foldl pickRecent r).score

/-- The records of one kind for a pair, in insertion order. -/
def kindRecords (k : EvidenceKind) (evs : List EvidenceRecord) : List EvidenceRecord :=
  evs.filter (fun r => r.kind == k)

/-- Modelled from the spec: the per-kind score entering aggregation
(missing `skill_service.py`).  Within a kind the maximum observed
(effective) score is used, except for quiz where the most recent score
is used. -/
def kindScore (k : EvidenceKind) (evs : List EvidenceRecord) : ℚ :=
  if k = .quiz then mostRecentScore (kindRecords k evs)
  else maxScore ((kindRecords k evs).map effectiveScore)

/-- The kinds with at least one record for the pair, in canonical
order. -/
def presentKinds (evs : List EvidenceRecord) : List EvidenceKind :=
  allKinds.filter (fun k => evs.any (fun r => r.kind == k))

/-- Sum of the weights of the kinds actually present for the pair. -/
def weightSum (evs : List EvidenceRecord) : ℚ :=
  ((presentKinds evs).map kindWeight).sum

/-- Weighted sum of the per-kind scores over the kinds present. -/
def weightedNum (evs : List EvidenceRecord) : ℚ :=
  ((presentKinds evs).map (fun k => kindWeight k * kindScore k evs)).sum

/-- Modelled from the spec: the aggregated weighted score of a
(student, skill) pair (missing `skill_service.py`): the per-kind scores
combined with the fixed relative weights, normalized by the sum of the
weights of the kinds actually present (not a fixed denominator).
With no evidence the denominator is 0 and the score is the valid
zero-score state. -/
def weightedScore (evs : List EvidenceRecord) : ℚ :=
  weightedNum evs / weightSum evs

/-- Modelled from the spec: confidence is
min(1.0, 0.25 * distinct_evidence_kinds_present + 0.1 * total_evidence_count)
(missing `skill_service.py`). -/
def confidence (evs : List EvidenceRecord) : ℚ :=
  min 1 ((1 / 4) * ((presentKinds evs).length : ℚ) + (1 / 10) * (evs.length : ℚ))

/-- The per-kind summaries stored on the aggregated row: kind, the score
that entered aggregation, and its relative weight. -/
def evidenceSources (evs : List EvidenceRecord) : List (EvidenceKind × ℚ × ℚ) :=
  (presentKinds evs).map (fun k => (k, kindScore k evs, kindWeight k))

/-- Timestamp of the latest evidence for the pair (0 if none). -/
def latestEvidenceTs (evs : List EvidenceRecord) : ℕ :=
  evs.foldl (fun a r => max a r.timestamp) 0

/-- Modelled from the spec: the pure recomputation of an
`AggregatedSkillScore` from the pair's evidence plus override lookup
(missing `skill_service.py`).  An override that postdates the latest
evidence replaces the weighted score entirely; confidence and
evidence_sources remain as computed from the evidence. -/
def computeAggregate (evs : List EvidenceRecord) (ov : Option SkillOverride) :
    AggregatedSkillScore :=
  let base := weightedScore evs
  let ws :=
    match ov with
    | some o => if latestEvidenceTs evs < o.timestamp then o.overridden_score else base
    | none => base
  { weighted_score := ws, confidence := confidence evs, evidence_sources := evidenceSources evs }

/-- The engine's error taxonomy (spec section 7): validation failures are
rejected synchronously, unknown ids surface as not-found. -/
inductive EngineError : Type
  | validationError
  | notFoundError
deriving DecidableEq, Repr

/-- Parsing of the wire-level assessment kind (`assessment_type VARCHAR`
in `src/unnamed/part_001`, line 97) into the closed evidence-kind set;
any other string is unrecognized. -/
def parseKind : String → Option EvidenceKind
  | "quiz" => some .quiz
  | "project" => some .project
  | "certification" => some .certification
  | "internship" => some .internship
  | "interview" => some .interview
  | _ => none

/-- From `schema.sql` (`src/unnamed/part_001`, line 134): the default
`provider_credibility` of a certification row created without an
explicit value is 0.7. -/
def defaultProviderCredibility : ℚ := 7 / 10

/-- From `schema.sql` (`src/unnamed/part_001`, line 134): the CHECK
constraint `provider_credibility BETWEEN 0 AND 1`. -/
def providerCredibilityCheck (c : ℚ) : Bool :=
  decide (0 ≤ c) && decide (c ≤ 1)

/-- From `schema.sql` (`src/unnamed/part_001`, lines 129-138): a
certification row; a row built without an explicit credibility receives
the column default. -/
structure Certification : Type where
  certification_title : String
  provider : String
  provider_credibility : ℚ
deriving DecidableEq, Repr

/-- Row construction with the schema's column default: an absent
credibility becomes `defaultProviderCredibility`. -/
def mkCertification (title provider : String) (cred : Option ℚ) : Certification :=
  { certification_title := title
    provider := provider
    provider_credibility := cred.getD defaultProviderCredibility }

/-- Insertion into the certifications table enforces the CHECK
constraint: a row failing it is rejected and the table is unchanged. -/
def insertCertification (table : List Certification) (c : Certification) :
    List Certification :=
  if providerCredibilityCheck c.provider_credibility then table ++ [c] else table

/-- Association lookup on (student, skill) / (student, role) keys. -/
def alookup {α : Type} : List ((ℕ × ℕ) × α) → ℕ × ℕ → Option α
  | [], _ => none
  | (k, v) :: rest, key => if k = key then some v else alookup rest key

/-- Association upsert: replace the value under the key if present,
append the pair otherwise. -/
def aupsert {α : Type} : List ((ℕ × ℕ) × α) → ℕ × ℕ → α → List ((ℕ × ℕ) × α)
  | [], key, v => [(key, v)]
  | (k, w) :: rest, key, v =>
      if k = key then (key, v) :: rest else (k, w) :: aupsert rest key v

/-- Modelled from the spec: the engine's store — the existing skill ids,
the append-only evidence log per (student, skill) pair, the override
table, and the derived aggregated rows (the persistence interface of
spec section 6; the backing services are missing from the tree). -/
structure EngineState : Type where
  skills : List ℕ
  evidence : List ((ℕ × ℕ) × List EvidenceRecord)
  overrides : List ((ℕ × ℕ) × SkillOverride)
  aggregated : List ((ℕ × ℕ) × AggregatedSkillScore)
deriving DecidableEq, Repr

/-- Modelled from the spec: `recordEvidence` (missing
`skill_service.py`, submit-assessment path).  Validation failures
(out-of-range score, unrecognized kind) are rejected synchronously
before anything else; an unknown skill id is a not-found failure; a
valid submission appends one evidence record to the pair's log and
recomputes that pair's aggregated row as a pure function of the new
evidence set and the override lookup.  The optional payload carries a
certification's provider credibility; absent, the schema default 0.7
applies. -/
def recordEvidence (st : EngineState) (studentId skillId : ℕ) (kind : String)
    (score : ℚ) (payload : Option ℚ) (ts : ℕ) :
    EngineState × Except EngineError AggregatedSkillScore :=
  if score < 0 ∨ 100 < score then (st, .error .validationError)
  else
    match parseKind kind with
    | none => (st, .error .validationError)
    | some k =>
        if skillId ∈ st.skills then
          let r : EvidenceRecord :=
            { kind := k, score := score,
              credibility := payload.getD defaultProviderCredibility, timestamp := ts }
          let evs := ((alookup st.evidence (studentId, skillId)).getD []) ++ [r]
          let agg := computeAggregate evs (alookup st.overrides (studentId, skillId))
          ({ st with
              evidence := aupsert st.evidence (studentId, skillId) evs,
              aggregated := aupsert st.aggregated (studentId, skillId) agg },
           .ok agg)
        else (st, .error .notFoundError)

/-- From `TPORoleList.tsx` (`src/frontend/src/pages/TPORoleList.tsx`,
lines 60-65): one entry of a role's required-skills specification. -/
structure RequiredSkill : Type where
  skill_name : String
  min_score : ℚ
  mandatory : Bool
  weight : ℚ
deriving DecidableEq, Repr

/-- From `GapAnalysisPage` (`src/unnamed/part_006`, lines 35-43): the
gap priority levels of a `SkillGap`. -/
inductive Priority : Type
  | Critical
  | High
  | Medium
  | Low
deriving DecidableEq, Repr

/-- Modelled from the spec: the achievement ratio of a required-skill
entry (missing `role_service.py`):
min(1.0, studentScore / minScore) when minScore > 0, else 1.0. -/
def achieved (studentScore minScore : ℚ) : ℚ :=
  if 0 < minScore then min 1 (studentScore / minScore) else 1

/-- Modelled from the spec: an entry is a gap exactly when the student's
score is below the entry's minimum (missing `role_service.py`). -/
def isGap (rs : RequiredSkill) (studentScore : ℚ) : Bool :=
  decide (studentScore < rs.min_score)

/-- Modelled from the spec: the gap priority of a required-skill entry
(missing `role_service.py`): Critical if mandatory and below half the
minimum, High if mandatory and a gap exists, Medium if optional and
below 0.7 of the minimum, else Low. -/
def gapPriority (rs : RequiredSkill) (studentScore : ℚ) : Priority :=
  if rs.mandatory && decide (studentScore < rs.min_score / 2) then .Critical
  else if rs.mandatory && isGap rs studentScore then .High
  else if !rs.mandatory && decide (studentScore < (7 / 10) * rs.min_score) then .Medium
  else .Low

/-- Modelled from the spec: the 0-100 match score of a student against a
role's required-skills list (missing `role_service.py`):
100 * (sum of achieved * weight) / (sum of weights across all entries),
clamped to [0, 100].  `lookup` gives the student's effective score per
skill name (missing aggregated entries enter as 0 through the caller). -/
def matchScore (reqs : List RequiredSkill) (lookup : String → ℚ) : ℚ :=
  max 0 (min 100
    (100 * (reqs.map (fun rs => achieved (lookup rs.skill_name) rs.min_score * rs.weight)).sum
      / (reqs.map (fun rs => rs.weight)).sum))

/-- From `schema.sql` (`src/unnamed/part_001`, lines 82-90): a cached
`student_role_matches` row. -/
structure RoleMatch : Type where
  match_score : ℚ
  missing_skills : List (String × ℚ)
  calculated_at : ℕ
deriving DecidableEq, Repr

/-- Modelled from the spec: the Role Matcher's full result persisted to
the cache (missing `role_service.py`): the clamped match score, the gap
list with each gap's shortfall, and the calculation timestamp. -/
def computeRoleMatch (reqs : List RequiredSkill) (lookup : String → ℚ) (now : ℕ) :
    RoleMatch :=
  { match_score := matchScore reqs lookup,
    missing_skills :=
      (reqs.filter (fun rs => isGap rs (lookup rs.skill_name))).map
        (fun rs => (rs.skill_name, rs.min_score - lookup rs.skill_name)),
    calculated_at := now }

/-- The match cache keyed by (studentId, roleId)
(`student_role_matches`, `src/unnamed/part_001`, lines 82-90). -/
structure MatchCache : Type where
  entries : List ((ℕ × ℕ) × RoleMatch)
deriving DecidableEq, Repr

/-- Modelled from the spec: `getOrCompute` of the Match Cache (missing
`role_service.py`): with `forceRecalculate` false a cached RoleMatch is
returned unchanged with no staleness check; otherwise (or with no cache)
the Role Matcher runs and the result is persisted with a fresh
`calculated_at`. -/
def getOrCompute (cache : MatchCache) (studentId roleId : ℕ)
    (reqs : List RequiredSkill) (lookup : String → ℚ) (forceRecalculate : Bool)
    (now : ℕ) : MatchCache × RoleMatch :=
  match alookup cache.entries (studentId, roleId) with
  | some rm =>
      if forceRecalculate then
        let fresh := computeRoleMatch reqs lookup now
        ({ entries := aupsert cache.entries (studentId, roleId) fresh }, fresh)
      else (cache, rm)
  | none =>
      let fresh := computeRoleMatch reqs lookup now
      ({ entries := aupsert cache.entries (studentId, roleId) fresh }, fresh)

/-- Scenario D of the spec: a role with two required skills of weights
0.6 and 0.4, both with minimum 80; the second is mandatory. -/
def scenarioDReqs : List RequiredSkill :=
  [⟨"SkillOne", 80, false, 3 / 5⟩, ⟨"SkillTwo", 80, true, 2 / 5⟩]

/-- Scenario D of the spec: the student fully meets the first skill
(score 80, achieved 1.0) and scores half of the minimum on the second
(score 40, achieved 0.5). -/
def scenarioDLookup : String → ℚ :=
  fun s => if s = "SkillOne" then 80 else 40

/-- A well-formed evidence record: score within the schema's CHECK range
0..100 (`src/unnamed/part_001`, line 98) and credibility within the
certification CHECK range 0..1 (`src/unnamed/part_001`, line 134). -/
def wfRecord (r : EvidenceRecord) : Prop :=
  0 ≤ r.score ∧ r.score ≤ 100 ∧ 0 ≤ r.credibility ∧ r.credibility ≤ 1

/-- A well-formed override: overridden_score within the schema's CHECK
range 0..100 (`src/unnamed/part_001`, line 190). -/
def wfOverride (o : SkillOverride) : Prop :=
  0 ≤ o.overridden_score ∧ o.overridden_score ≤ 100

lemma le_foldl_max (xs : List ℚ) : ∀ a : ℚ, a ≤ xs.foldl max a := by
  induction xs with
  | nil => intro a; simp
  | cons x xs ih =>
      intro a
      calc a ≤ max a x := le_max_left a x
        _ ≤ xs.foldl max (max a x) := ih (max a x)

lemma foldl_max_le (xs : List ℚ) :
    ∀ a b : ℚ, a ≤ b → (∀ x ∈ xs, x ≤ b) → xs.foldl max a ≤ b := by
  induction xs with
  | nil => intro a b hab _; simpa using hab
  | cons x xs ih =>
      intro a b hab hx
      simp only [List.foldl_cons]
      refine ih (max a x) b (max_le hab ?_) ?_
      · exact hx x (List.mem_cons_self x xs)
      · intro y hy
        exact hx y (List.mem_cons_of_mem x hy)

lemma maxScore_nonneg (xs : List ℚ) : 0 ≤ maxScore xs :=
  le_foldl_max xs 0

lemma maxScore_le (xs : List ℚ) (h : ∀ x ∈ xs, x ≤ 100) : maxScore xs ≤ 100 :=
  foldl_max_le xs 0 100 (by norm_num) h

lemma foldl_pickRecent_mem (rs : List EvidenceRecord) :
    ∀ a : EvidenceRecord, rs.foldl pickRecent a = a ∨ rs.foldl pickRecent a ∈ rs := by
  induction rs with
  | nil => intro a; left; rfl
  | cons r rs ih =>
      intro a
      simp only [List.foldl_cons]
      rcases ih (pickRecent a r) with h | h
      · rw [h]
        unfold pickRecent
        by_cases hts : a.timestamp ≤ r.timestamp
        · right; simp [hts]
        · left; simp [hts]
      · right
        exact List.mem_cons_of_mem r h

lemma mostRecentScore_cases (recs : List EvidenceRecord) :
    mostRecentScore recs = 0 ∨ ∃ r ∈ recs, mostRecentScore recs = r.score := by
  cases recs with
  | nil => left; rfl
  | cons r rs =>
      right
      rcases foldl_pickRecent_mem rs r with h | h
      · exact ⟨r, List.mem_cons_self r rs, by simp [mostRecentScore, h]⟩
      · exact ⟨rs.foldl pickRecent r, List.mem_cons_of_mem r h, rfl⟩

lemma effectiveScore_bounds (r : EvidenceRecord) (h : wfRecord r) :
    0 ≤ effectiveScore r ∧ effectiveScore r ≤ 100 := by
  obtain ⟨h0, h100, hc0, hc1⟩ := h
  unfold effectiveScore
  by_cases hk : r.kind = .certification
  · simp only [hk, if_pos rfl]
    constructor
    · exact mul_nonneg h0 hc0
    · calc r.score * r.credibility ≤ r.score * 1 := by
            exact mul_le_mul_of_nonneg_left hc1 h0
        _ = r.score := mul_one _
        _ ≤ 100 := h100
  · simp only [if_neg hk]
    exact ⟨h0, h100⟩

lemma kindRecords_subset (k : EvidenceKind) (evs : List EvidenceRecord)
    (r : EvidenceRecord) (h : r ∈ kindRecords k evs) : r ∈ evs := by
  unfold kindRecords at h
  exact List.mem_of_mem_filter h

lemma kindScore_bounds (k : EvidenceKind) (evs : List EvidenceRecord)
    (hwf : ∀ r ∈ evs, wfRecord r) : 0 ≤ kindScore k evs ∧ kindScore k evs ≤ 100 := by
  unfold kindScore
  by_cases hk : k = .quiz
  · simp only [if_pos hk]
    rcases mostRecentScore_cases (kindRecords k evs) with h | ⟨r, hr, h⟩
    · rw [h]; norm_num
    · rw [h]
      have hwfr := hwf r (kindRecords_subset k evs r hr)
      exact ⟨hwfr.1, hwfr.2.1⟩
  · simp only [if_neg hk]
    constructor
    · exact maxScore_nonneg _
    · refine maxScore_le _ ?_
      intro x hx
      rcases List.mem_map.mp hx with ⟨r, hr, hrx⟩
      rw [← hrx]
      exact (effectiveScore_bounds r (hwf r (kindRecords_subset k evs r hr))).2

lemma kindWeight_nonneg (k : EvidenceKind) : 0 ≤ kindWeight k := by
  cases k <;> norm_num [kindWeight]

lemma weightSum_nonneg (evs : List EvidenceRecord) : 0 ≤ weightSum evs := by
  unfold weightSum
  refine List.sum_nonneg ?_
  intro x hx
  rcases List.mem_map.mp hx with ⟨k, _, hk⟩
  rw [← hk]
  exact kindWeight_nonneg k

lemma weightedNum_nonneg (evs : List EvidenceRecord)
    (hwf : ∀ r ∈ evs, wfRecord r) : 0 ≤ weightedNum evs := by
  unfold weightedNum
  refine List.sum_nonneg ?_
  intro x hx
  rcases List.mem_map.mp hx with ⟨k, _, hk⟩
  rw [← hk]
  exact mul_nonneg (kindWeight_nonneg k) (kindScore_bounds k evs hwf).1

lemma weightedNum_le (evs : List EvidenceRecord)
    (hwf : ∀ r ∈ evs, wfRecord r) : weightedNum evs ≤ 100 * weightSum evs := by
  unfold weightedNum weightSum
  rw [← List.sum_map_mul_left]
  refine List.sum_le_sum ?_
  intro k _
  calc kindWeight k * kindScore k evs
      ≤ kindWeight k * 100 :=
        mul_le_mul_of_nonneg_left (kindScore_bounds k evs hwf).2 (kindWeight_nonneg k)
    _ = 100 * kindWeight k := mul_comm _ _

lemma weightedScore_bounds (evs : List EvidenceRecord)
    (hwf : ∀ r ∈ evs, wfRecord r) :
    0 ≤ weightedScore evs ∧ weightedScore evs ≤ 100 := by
  unfold weightedScore
  rcases eq_or_lt_of_le (weightSum_nonneg evs) with hz | hpos
  · rw [← hz]
    norm_num
  · constructor
    · exact div_nonneg (weightedNum_nonneg evs hwf) (le_of_lt hpos)
    · rw [div_le_iff₀ hpos]
      calc weightedNum evs ≤ 100 * weightSum evs := weightedNum_le evs hwf
        _ = weightSum evs * 100 := mul_comm _ _
        _ ≤ 100 * weightSum evs := le_of_eq (mul_comm _ _)

lemma confidence_bounds (evs : List EvidenceRecord) :
    0 ≤ confidence evs ∧ confidence evs ≤ 1 := by
  unfold confidence
  constructor
  · refine le_min (by norm_num) ?_
    have h1 : (0 : ℚ) ≤ ((presentKinds evs).length : ℚ) := by positivity
    have h2 : (0 : ℚ) ≤ (evs.length : ℚ) := by positivity
    positivity
  · exact min_le_left _ _

lemma alookup_aupsert {α : Type} (l : List ((ℕ × ℕ) × α)) (key : ℕ × ℕ) (v : α) :
    alookup (aupsert l key v) key = some v := by
  induction l with
  | nil => simp [aupsert, alookup]
  | cons p rest ih =>
      obtain ⟨k, w⟩ := p
      by_cases hk : k = key
      · simp [aupsert, hk, alookup]
      · simp [aupsert, hk, alookup, ih]

lemma wf_append_singleton (evs : List EvidenceRecord) (r0 : EvidenceRecord)
    (h : ∀ r ∈ evs, wfRecord r) (h0 : wfRecord r0) :
    ∀ r ∈ evs ++ [r0], wfRecord r := by
  intro r hr
  rcases List.mem_append.mp hr with hm | hm
  · exact h r hm
  · have hr0 : r = r0 := by simpa using hm
    rw [hr0]
    exact h0

lemma computeAggregate_bounds (evs : List EvidenceRecord) (ov : Option SkillOverride)
    (hwf : ∀ r ∈ evs, wfRecord r) (hov : ∀ o, ov = some o → wfOverride o) :
    0 ≤ (computeAggregate evs ov).weighted_score
    ∧ (computeAggregate evs ov).weighted_score ≤ 100
    ∧ 0 ≤ (computeAggregate evs ov).confidence
    ∧ (computeAggregate evs ov).confidence ≤ 1 := by
  have hc := confidence_bounds evs
  have hw := weightedScore_bounds evs hwf
  cases ov with
  | none => exact ⟨hw.1, hw.2, by simpa [computeAggregate] using hc.1,
      by simpa [computeAggregate] using hc.2⟩
  | some o =>
      have ho := hov o rfl
      by_cases hts : latestEvidenceTs evs < o.timestamp
      · exact ⟨by simpa [computeAggregate, hts] using ho.1,
          by simpa [computeAggregate, hts] using ho.2,
          by simpa [computeAggregate] using hc.1,
          by simpa [computeAggregate] using hc.2⟩
      · exact ⟨by simpa [computeAggregate, hts] using hw.1,
          by simpa [computeAggregate, hts] using hw.2,
          by simpa [computeAggregate] using hc.1,
          by simpa [computeAggregate] using hc.2⟩

/-- Claim C1: for every student and every role with a non-empty
required-skills list, the match score is 100 times the sum of
achieved-times-weight contributions divided by the sum of all entry
weights, clamped to [0, 100], where achieved is min(1, score/minScore)
for positive minScore and 1 otherwise; a failed mandatory skill does not
force the score to 0; in Scenario D (weights 0.6 and 0.4, achieved 1.0
and 0.5, the second skill mandatory and failed) the match score is 80. -/
theorem C1_matchScore_formula (reqs : List RequiredSkill) (lookup : String → ℚ)
    (_hne : reqs ≠ []) :
    matchScore reqs lookup =
      max 0 (min 100
        (100 * (reqs.map (fun rs => achieved (lookup rs.skill_name) rs.min_score * rs.weight)).sum
          / (reqs.map (fun rs => rs.weight)).sum))
    ∧ (∀ s m : ℚ, 0 < m → achieved s m = min 1 (s / m))
    ∧ (∀ s m : ℚ, ¬ 0 < m → achieved s m = 1)
    ∧ matchScore scenarioDReqs scenarioDLookup = 80
    ∧ isGap ⟨"SkillTwo", 80, true, 2/5⟩ 40 = true
    ∧ matchScore scenarioDReqs scenarioDLookup ≠ 0 := by
  refine ⟨rfl, ?_, ?_, ?_, ?_, ?_⟩
  · intro s m hm; simp [achieved, hm]
  · intro s m hm; simp [achieved, hm]
  · simp [matchScore, scenarioDReqs, scenarioDLookup, achieved]
    norm_num
  · simp [isGap]
    norm_num
  · simp [matchScore, scenarioDReqs, scenarioDLookup, achieved]
    norm_num

/-- Claim C1 witness: the theorem applied to the Scenario D role. -/
theorem C1_matchScore_formula_witness :
    matchScore scenarioDReqs scenarioDLookup = 80 ∧
    isGap ⟨"SkillTwo", 80, true, 2/5⟩ 40 = true :=
  ⟨(C1_matchScore_formula scenarioDReqs scenarioDLookup (by simp [scenarioDReqs])).2.2.2.1,
   (C1_matchScore_formula scenarioDReqs scenarioDLookup (by simp [scenarioDReqs])).2.2.2.2.1⟩

/-- Claim C2: the aggregated weighted score combines the per-kind scores
with fixed relative weights quiz 0.40, project 0.35, certification 0.25,
internship 0.20, normalized by the sum of the weights of the kinds
actually present rather than a fixed denominator; a student with only
quiz and project evidence is scored purely on those two kinds in a 40:35
ratio. -/
theorem C2_kind_weights_normalization :
    kindWeight .quiz = 2 / 5 ∧ kindWeight .project = 7 / 20
    ∧ kindWeight .certification = 1 / 4 ∧ kindWeight .internship = 1 / 5
    ∧ (∀ evs : List EvidenceRecord,
        weightedScore evs =
          ((presentKinds evs).map (fun k => kindWeight k * kindScore k evs)).sum
            / ((presentKinds evs).map kindWeight).sum)
    ∧ (∀ (q p cq cp : ℚ) (tq tp : ℕ), 0 ≤ p →
        weightedScore [⟨.quiz, q, cq, tq⟩, ⟨.project, p, cp, tp⟩]
          = ((2 / 5) * q + (7 / 20) * p) / (2 / 5 + 7 / 20)) := by
  refine ⟨rfl, rfl, rfl, rfl, fun evs => rfl, ?_⟩
  intro q p cq cp tq tp hp
  simp [weightedScore, weightedNum, weightSum, presentKinds, allKinds, kindScore,
    kindRecords, kindWeight, mostRecentScore, maxScore, effectiveScore, pickRecent,
    max_eq_right hp]

/-- Claim C2 witness: the quiz-and-project-only blend at scores 80 and
60. -/
theorem C2_kind_weights_normalization_witness :
    weightedScore [⟨.quiz, 80, 1, 1⟩, ⟨.project, 60, 1, 2⟩]
      = ((2 / 5) * 80 + (7 / 20) * 60) / (2 / 5 + 7 / 20) :=
  C2_kind_weights_normalization.2.2.2.2.2 80 60 1 1 1 2 (by norm_num)

/-- Claim C3: within a single evidence kind, the score entering
aggregation is the maximum observed (effective) score of that kind's
records, except for quiz, where the most recent score is used; two
quizzes 90-then-60 aggregate as 60 while two certifications 50-then-80
aggregate as 80. -/
theorem C3_per_kind_scores :
    (∀ (k : EvidenceKind) (evs : List EvidenceRecord), k ≠ .quiz →
        kindScore k evs = maxScore ((kindRecords k evs).map effectiveScore))
    ∧ (∀ evs : List EvidenceRecord,
        kindScore .quiz evs = mostRecentScore (kindRecords .quiz evs))
    ∧ kindScore .quiz [⟨.quiz, 90, 1, 1⟩, ⟨.quiz, 60, 1, 2⟩] = 60
    ∧ kindScore .certification
        [⟨.certification, 50, 1, 1⟩, ⟨.certification, 80, 1, 2⟩] = 80 := by
  refine ⟨?_, ?_, ?_, ?_⟩
  · intro k evs hk; simp [kindScore, hk]
  · intro evs; simp [kindScore]
  · norm_num [kindScore, kindRecords, mostRecentScore, pickRecent]
  · have hne : EvidenceKind.certification ≠ EvidenceKind.quiz := by decide
    simp only [kindScore, if_neg hne]
    norm_num [kindRecords, maxScore, effectiveScore, max_def]

/-- Claim C3 witness: the maximum rule applied to the certification
kind. -/
theorem C3_per_kind_scores_witness :
    kindScore .certification [] =
      maxScore ((kindRecords .certification []).map effectiveScore) :=
  C3_per_kind_scores.1 .certification [] (by simp)

/-- Claim C4: certification evidence enters aggregation as raw score
times provider credibility; a student whose only evidence is one
certification with credibility 0.7 and raw score 90 gets
weighted score 63 and confidence 0.35 out of recordEvidence. -/
theorem C4_certification_scaling :
    (∀ (s c : ℚ) (t : ℕ), effectiveScore ⟨.certification, s, c, t⟩ = s * c)
    ∧ (recordEvidence ⟨[1], [], [], []⟩ 1 1 "certification" 90 (some (7 / 10)) 5).2
        = .ok { weighted_score := 63, confidence := 7 / 20,
                evidence_sources := [(.certification, 63, 1 / 4)] } := by
  constructor
  · intro s c t; simp [effectiveScore]
  · simp [recordEvidence, parseKind, alookup, computeAggregate, weightedScore,
      weightedNum, weightSum, presentKinds, allKinds, kindScore, kindRecords,
      mostRecentScore, maxScore, effectiveScore, confidence, evidenceSources,
      defaultProviderCredibility, latestEvidenceTs, kindWeight]
    norm_num

/-- Claim C5: an entry is a gap exactly when the student score is below
the minimum; gap priority is Critical for a mandatory entry below half
the minimum, High for a mandatory gap, Medium for an optional entry
below 0.7 of the minimum, Low otherwise; a mandatory skill with minimum
80 and student score 30 is Critical. -/
theorem C5_gap_classification :
    (∀ (rs : RequiredSkill) (s : ℚ), isGap rs s = true ↔ s < rs.min_score)
    ∧ (∀ (rs : RequiredSkill) (s : ℚ), rs.mandatory = true → s < rs.min_score / 2 →
        gapPriority rs s = .Critical)
    ∧ (∀ (rs : RequiredSkill) (s : ℚ), rs.mandatory = true → ¬ s < rs.min_score / 2 →
        s < rs.min_score → gapPriority rs s = .High)
    ∧ (∀ (rs : RequiredSkill) (s : ℚ), rs.mandatory = false →
        s < (7 / 10) * rs.min_score → gapPriority rs s = .Medium)
    ∧ (∀ (rs : RequiredSkill) (s : ℚ), rs.mandatory = false →
        ¬ s < (7 / 10) * rs.min_score → gapPriority rs s = .Low)
    ∧ gapPriority ⟨"StructuralAnalysis", 80, true, 1⟩ 30 = .Critical := by
  refine ⟨?_, ?_, ?_, ?_, ?_, ?_⟩
  · intro rs s; simp [isGap]
  · intro rs s hm h; simp [gapPriority, hm, h]
  · intro rs s hm h hg; simp [gapPriority, isGap, hm, h, hg]
  · intro rs s hm h; simp [gapPriority, isGap, hm, h]
  · intro rs s hm h; simp [gapPriority, isGap, hm, h]
  · have h2 := (by norm_num : (30 : ℚ) < 80 / 2)
    simp [gapPriority, h2]

/-- Claim C5 witness: Critical priority at a concrete mandatory
shortfall. -/
theorem C5_gap_classification_witness :
    gapPriority ⟨"PowerSystems", 70, true, 1⟩ 30 = .Critical :=
  C5_gap_classification.2.1 ⟨"PowerSystems", 70, true, 1⟩ 30 rfl (by norm_num)

/-- Claim C6: an override that postdates the latest evidence replaces
the computed weighted score for all downstream matching — the match
score computed from the pair sees the overridden value — while
confidence and evidence_sources remain exactly as computed from the
evidence. -/
theorem C6_override_precedence (evs : List EvidenceRecord) (o : SkillOverride)
    (hpost : latestEvidenceTs evs < o.timestamp) :
    (computeAggregate evs (some o)).weighted_score = o.overridden_score
    ∧ (computeAggregate evs (some o)).confidence = (computeAggregate evs none).confidence
    ∧ (computeAggregate evs (some o)).evidence_sources
        = (computeAggregate evs none).evidence_sources
    ∧ ∀ rs : RequiredSkill,
        matchScore [rs] (fun _ => (computeAggregate evs (some o)).weighted_score)
          = matchScore [rs] (fun _ => o.overridden_score) := by
  have hws : (computeAggregate evs (some o)).weighted_score = o.overridden_score := by
    simp [computeAggregate, hpost]
  refine ⟨hws, by simp [computeAggregate], by simp [computeAggregate], ?_⟩
  intro rs
  rw [hws]

/-- Claim C6 witness: an override of timestamp 3 over empty evidence. -/
theorem C6_override_precedence_witness :
    (computeAggregate [] (some ⟨55, 3⟩)).weighted_score = 55 :=
  (C6_override_precedence [] ⟨55, 3⟩ (by simp [latestEvidenceTs])).1

/-- Claim C7: with forceRecalculate false, getOrCompute returns an
existing cached RoleMatch unchanged whatever the current time (no
staleness check), and two consecutive cached reads without intervening
evidence return identical RoleMatch values. -/
theorem C7_cached_read_idempotent :
    (∀ (cache : MatchCache) (s r : ℕ) (reqs : List RequiredSkill)
        (lookup : String → ℚ) (now : ℕ) (rm : RoleMatch),
        alookup cache.entries (s, r) = some rm →
        getOrCompute cache s r reqs lookup false now = (cache, rm))
    ∧ (∀ (cache : MatchCache) (s r : ℕ) (reqs : List RequiredSkill)
        (lookup : String → ℚ) (now1 now2 : ℕ),
        (getOrCompute (getOrCompute cache s r reqs lookup false now1).1 s r reqs
            lookup false now2).2
          = (getOrCompute cache s r reqs lookup false now1).2) := by
  constructor
  · intro cache s r reqs lookup now rm h
    simp [getOrCompute, h]
  · intro cache s r reqs lookup now1 now2
    cases h : alookup cache.entries (s, r) with
    | some rm => simp [getOrCompute, h]
    | none => simp [getOrCompute, h, alookup_aupsert]

/-- Claim C7 witness: a cached entry returned unchanged at an unrelated
current time. -/
theorem C7_cached_read_idempotent_witness :
    getOrCompute ⟨[((1, 2), ⟨75, [], 10⟩)]⟩ 1 2 [] (fun _ => 0) false 99
      = (⟨[((1, 2), ⟨75, [], 10⟩)]⟩, ⟨75, [], 10⟩) :=
  C7_cached_read_idempotent.1 ⟨[((1, 2), ⟨75, [], 10⟩)]⟩ 1 2 [] (fun _ => 0) 99
    ⟨75, [], 10⟩ (by simp [alookup])

/-- Claim C8: recordEvidence fails with ValidationError exactly when the
score is outside [0, 100] or the kind string is not in the closed
evidence-kind set, fails with NotFoundError when the skill id references
no existing skill (and the submission is otherwise valid), and every
failure leaves the store unchanged — no evidence appended, no aggregated
row changed. -/
theorem C8_recordEvidence_errors (st : EngineState) (sid skid : ℕ) (kind : String)
    (score : ℚ) (payload : Option ℚ) (ts : ℕ) :
    ((recordEvidence st sid skid kind score payload ts).2
        = .error .validationError
      ↔ (score < 0 ∨ 100 < score ∨ parseKind kind = none))
    ∧ (¬ (score < 0 ∨ 100 < score) → ∀ k, parseKind kind = some k →
        skid ∉ st.skills →
        (recordEvidence st sid skid kind score payload ts).2
          = .error .notFoundError)
    ∧ (∀ e : EngineError,
        (recordEvidence st sid skid kind score payload ts).2 = .error e →
        (recordEvidence st sid skid kind score payload ts).1 = st) := by
  by_cases h1 : score < 0 ∨ 100 < score
  · refine ⟨?_, ?_, ?_⟩
    · constructor
      · intro _
        exact Or.elim h1 Or.inl (fun h => Or.inr (Or.inl h))
      · intro _
        simp [recordEvidence, h1]
    · intro h; exact absurd h1 h
    · intro e _; simp [recordEvidence, h1]
  · cases hk : parseKind kind with
    | none =>
        refine ⟨?_, ?_, ?_⟩
        · simp [recordEvidence, h1, hk]
        · intro _ k hks _
          simp [hk] at hks
        · intro e _; simp [recordEvidence, h1, hk]
    | some k =>
        by_cases hs : skid ∈ st.skills
        · refine ⟨?_, ?_, ?_⟩
          · simp [recordEvidence, h1, hk, hs]
          · intro _ k2 _ hns; exact absurd hs hns
          · intro e he
            rw [recordEvidence] at he
            simp [h1, hk, hs] at he
        · refine ⟨?_, ?_, ?_⟩
          · simp [recordEvidence, h1, hk, hs]
          · intro _ k2 _ _; simp [recordEvidence, h1, hk, hs]
          · intro e _; simp [recordEvidence, h1, hk, hs]

/-- Claim C8 witness: a score of 200 is rejected as a validation
error. -/
theorem C8_recordEvidence_errors_witness :
    (recordEvidence ⟨[1], [], [], []⟩ 1 1 "quiz" 200 none 0).2
      = .error .validationError :=
  (C8_recordEvidence_errors ⟨[1], [], [], []⟩ 1 1 "quiz" 200 none 0).1.mpr
    (Or.inr (Or.inl (by norm_num)))

/-- Claim C9: every valid evidence submission over a well-formed store
yields an aggregated row with weighted score in [0, 100] and confidence
in [0, 1]. -/
theorem C9_valid_submission_bounds (st : EngineState) (sid skid : ℕ) (kind : String)
    (score : ℚ) (payload : Option ℚ) (ts : ℕ) (st2 : EngineState)
    (agg : AggregatedSkillScore)
    (hev : ∀ evs, alookup st.evidence (sid, skid) = some evs → ∀ r ∈ evs, wfRecord r)
    (hov : ∀ o, alookup st.overrides (sid, skid) = some o → wfOverride o)
    (hpay : ∀ c ∈ payload, 0 ≤ c ∧ c ≤ 1)
    (hok : recordEvidence st sid skid kind score payload ts = (st2, .ok agg)) :
    0 ≤ agg.weighted_score ∧ agg.weighted_score ≤ 100
    ∧ 0 ≤ agg.confidence ∧ agg.confidence ≤ 1 := by
  rw [recordEvidence] at hok
  split at hok
  · simp at hok
  · rename_i h1
    split at hok
    · simp at hok
    · rename_i k hk
      split at hok
      · have hagg : computeAggregate
            (((alookup st.evidence (sid, skid)).getD []) ++
              [{ kind := k, score := score,
                 credibility := payload.getD defaultProviderCredibility,
                 timestamp := ts }])
            (alookup st.overrides (sid, skid)) = agg := by
          have h2 := congrArg Prod.snd hok
          simpa using h2
        push_neg at h1
        have hcred : 0 ≤ payload.getD defaultProviderCredibility
            ∧ payload.getD defaultProviderCredibility ≤ 1 := by
          cases payload with
          | none =>
              constructor <;> norm_num [defaultProviderCredibility]
          | some c => simpa using hpay c (by simp)
        have hwfnew : wfRecord
            { kind := k, score := score,
              credibility := payload.getD defaultProviderCredibility,
              timestamp := ts } :=
          ⟨h1.1, h1.2, hcred.1, hcred.2⟩
        have hwfold : ∀ r ∈ ((alookup st.evidence (sid, skid)).getD []),
            wfRecord r := by
          cases hevs : alookup st.evidence (sid, skid) with
          | none => simp
          | some evs => simpa using hev evs hevs
        rw [← hagg]
        exact computeAggregate_bounds _ _
          (wf_append_singleton _ _ hwfold hwfnew) (fun o h => hov o h)
      · simp at hok

/-- Claim C9 witness: a quiz submission of score 80 into an empty
store. -/
theorem C9_valid_submission_bounds_witness :
    0 ≤ (AggregatedSkillScore.mk 80 (7 / 20) [(.quiz, 80, 2 / 5)]).weighted_score
    ∧ (AggregatedSkillScore.mk 80 (7 / 20) [(.quiz, 80, 2 / 5)]).weighted_score ≤ 100
    ∧ 0 ≤ (AggregatedSkillScore.mk 80 (7 / 20) [(.quiz, 80, 2 / 5)]).confidence
    ∧ (AggregatedSkillScore.mk 80 (7 / 20) [(.quiz, 80, 2 / 5)]).confidence ≤ 1 :=
  C9_valid_submission_bounds ⟨[1], [], [], []⟩ 1 1 "quiz" 80 none 1
    ⟨[1], [((1, 1), [⟨.quiz, 80, 7 / 10, 1⟩])], [],
      [((1, 1), ⟨80, 7 / 20, [(.quiz, 80, 2 / 5)]⟩)]⟩
    ⟨80, 7 / 20, [(.quiz, 80, 2 / 5)]⟩
    (by simp [alookup]) (by simp [alookup]) (by simp)
    (by
      simp [recordEvidence, parseKind, alookup, aupsert, computeAggregate,
        weightedScore, weightedNum, weightSum, presentKinds, allKinds, kindScore,
        kindRecords, mostRecentScore, maxScore, effectiveScore, confidence,
        evidenceSources, defaultProviderCredibility, latestEvidenceTs, kindWeight]
      norm_num)

/-- Claim C10: the schema constrains provider_credibility to [0, 1] for
every stored certification row, a certification created without an
explicit credibility receives the default 0.7, and under the
certification-scaling rule such a certification contributes
0.7 times its raw score. -/
theorem C10_provider_credibility :
    (∀ (table : List Certification) (c : Certification) (x : Certification),
        (∀ y ∈ table, 0 ≤ y.provider_credibility ∧ y.provider_credibility ≤ 1) →
        x ∈ insertCertification table c →
        0 ≤ x.provider_credibility ∧ x.provider_credibility ≤ 1)
    ∧ (∀ title provider : String,
        (mkCertification title provider none).provider_credibility = 7 / 10)
    ∧ (∀ (s : ℚ) (t : ℕ), effectiveScore
        ⟨.certification, s, (mkCertification "T" "P" none).provider_credibility, t⟩
          = (7 / 10) * s)
    ∧ providerCredibilityCheck defaultProviderCredibility = true := by
  refine ⟨?_, ?_, ?_, ?_⟩
  · intro table c x htable hx
    unfold insertCertification at hx
    by_cases hc : providerCredibilityCheck c.provider_credibility
    · rw [if_pos hc] at hx
      rcases List.mem_append.mp hx with h | h
      · exact htable x h
      · have hxc : x = c := by simpa using h
        rw [hxc]
        unfold providerCredibilityCheck at hc
        constructor
        · exact of_decide_eq_true (Bool.and_elim_left hc)
        · exact of_decide_eq_true (Bool.and_elim_right hc)
    · rw [if_neg hc] at hx
      exact htable x hx
  · intro title provider
    simp [mkCertification, defaultProviderCredibility]
  · intro s t
    simp [effectiveScore, mkCertification, defaultProviderCredibility, mul_comm]
  · norm_num [providerCredibilityCheck, defaultProviderCredibility]

/-- Claim C10 witness: a default-credibility row admitted by the check
lies in the constrained range. -/
theorem C10_provider_credibility_witness :
    0 ≤ (mkCertification "CertT" "Coursera" none).provider_credibility ∧
    (mkCertification "CertT" "Coursera" none).provider_credibility ≤ 1 :=
  C10_provider_credibility.1 [] (mkCertification "CertT" "Coursera" none)
    (mkCertification "CertT" "Coursera" none) (by simp)
    (by norm_num [insertCertification, providerCredibilityCheck, mkCertification,
      defaultProviderCredibility])
